import Mathlib

set_option maxRecDepth 8000
set_option linter.unusedVariables false

/-!
Shallow embedding of the editor–language-server bridge in
src/src/components/code-editor.tsx: the document/position model used by
CodeMirror, the diagnostics projector mapLspDiagnosticsToCM, the completion
provider lspCompletion, the linter lspLinter, the hover callback created by
createLspHover, the navigation handler handleNavigation, the revision counter
driven by handleChange, the language-grammar selector getLanguageExtension and
the project-root fallback of getProjectRoot.
-/

/-- A document line, as its character sequence. -/
abbrev Line := List Char

/-- A CodeMirror text document: a list of lines joined by newline characters
(a real document always has at least one line). Editor positions are offsets
into the joined text. -/
structure Doc where
  lines : List Line
  deriving DecidableEq

def Doc.numLines (d : Doc) : Nat := d.lines.length

/-- Length of the joined text: line lengths plus one separator between
consecutive lines. -/
def linesLength : List Line → Nat
  | [] => 0
  | [s] => s.length
  | s :: t :: rest => s.length + 1 + linesLength (t :: rest)

def Doc.length (d : Doc) : Nat := linesLength d.lines

def lineFromAux : List Line → Nat → Nat
  | _, 0 => 0
  | [], _ + 1 => 0
  | s :: rest, i + 1 => s.length + 1 + lineFromAux rest i

/-- Offset of the first character of 0-based line i: doc.line(i+1).from. -/
def Doc.lineFrom (d : Doc) (i : Nat) : Nat := lineFromAux d.lines i

/-- Length of 0-based line i: doc.line(i+1).length. -/
def Doc.lineLen (d : Doc) (i : Nat) : Nat := (d.lines.getD i []).length

/-- doc.line(n) for a 1-based line number n; CodeMirror throws a RangeError
when n is outside 1..doc.lines, embedded as none. Returns (from, length). -/
def Doc.line (d : Doc) (n : Int) : Option (Nat × Nat) :=
  if 1 ≤ n ∧ n ≤ (d.numLines : Int) then
    some (d.lineFrom (n - 1).toNat, d.lineLen (n - 1).toNat)
  else none

def lineIdxAtAux : List Line → Nat → Nat
  | [], _ => 0
  | [_], _ => 0
  | s :: t :: rest, pos =>
    if pos ≤ s.length then 0 else 1 + lineIdxAtAux (t :: rest) (pos - (s.length + 1))

/-- 0-based index of the line containing offset pos (state.doc.lineAt); a
position at a line's end belongs to that line. -/
def Doc.lineIdxAt (d : Doc) (pos : Nat) : Nat := lineIdxAtAux d.lines pos

/-- A server-form position, zero-based line and line-relative character. -/
structure LspPos where
  line : Nat
  character : Nat
  deriving DecidableEq

/-- A server-form range; stop embeds the source field named end. -/
structure LspRange where
  start : LspPos
  stop : LspPos
  deriving DecidableEq

structure DiagnosticItem where
  range : LspRange
  severity : String
  message : String
  deriving DecidableEq

/-- A CodeMirror diagnostic; fromOffset and toOffset embed the source fields
named from and to, which are editor offsets. -/
structure CMDiagnostic where
  fromOffset : Nat
  toOffset : Nat
  severity : String
  message : String
  deriving DecidableEq

/-- mapLspDiagnosticsToCM from the source: copies the character fields of the
server-form range straight into the editor offsets and maps severity to three
tiers. -/
def mapLspDiagnosticsToCM (diagnostics : List DiagnosticItem) : List CMDiagnostic :=
  diagnostics.map fun diag =>
    { fromOffset := diag.range.start.character
      toOffset := diag.range.stop.character
      severity :=
        if diag.severity = "error" then "error"
        else if diag.severity = "warning" then "warning" else "info"
      message := diag.message }

/-- Spec-side position translation (section 4.1 of the spec), used as the
refinement target for the diagnostics projector: clamp the line to the last
line and the character to that line's length, then convert to an editor
offset. -/
def specToEditorOffset (d : Doc) (p : LspPos) : Nat :=
  let i := min p.line (d.numLines - 1)
  d.lineFrom i + min p.character (d.lineLen i)

/-- Spec-side diagnostic projection: the range translated against the document
text plus the three-tier severity mapping. -/
def specProjectDiagnostic (d : Doc) (diag : DiagnosticItem) : CMDiagnostic :=
  { fromOffset := specToEditorOffset d diag.range.start
    toOffset := specToEditorOffset d diag.range.stop
    severity :=
      if diag.severity = "error" then "error"
      else if diag.severity = "warning" then "warning" else "info"
    message := diag.message }

/-- The slice of the external lsp-store state that the embedded functions
read (modelled from its use sites in code-editor.tsx). -/
structure LspStore where
  currentFilePath : Option String
  diagnostics : List DiagnosticItem
  deriving DecidableEq

/-- JavaScript truthiness of an optional string: null, undefined and the empty
string are falsy. -/
def pathTruthy : Option String → Bool
  | none => false
  | some s => !(s == "")

/-- lspLinter's callback. It is invoked with the editor view displaying
surfaceFilePath, but the source body reads only the store: both of its locals
filePath and currentFilePath are the same store field, so surfaceFilePath
never influences the result. -/
def lspLinter (surfaceFilePath : Option String) (store : LspStore) : List CMDiagnostic :=
  let currentFilePath := store.currentFilePath
  let filePath := store.currentFilePath
  if pathTruthy filePath = false ∨ filePath ≠ currentFilePath then []
  else mapLspDiagnosticsToCM store.diagnostics

structure CompletionItemL where
  label : String
  kind : String
  detail : String
  documentation : String
  deriving DecidableEq

/-- A CodeMirror completion option; app embeds the source field named apply. -/
structure CMCompletion where
  label : String
  type : String
  detail : String
  info : String
  app : String
  deriving DecidableEq

/-- JavaScript toLowerCase, characterwise. -/
def lowerString (s : String) : String := ⟨s.data.map Char.toLower⟩

/-- The per-item mapping inside lspCompletion's then-callback. -/
def cmOfItem (item : CompletionItemL) : CMCompletion :=
  { label := item.label
    type := lowerString item.kind
    detail := item.detail
    info := item.documentation
    app := item.label }

/-- The character class of the completion regex: word characters, digits,
underscore, hyphen, dot. -/
def isWordChar (c : Char) : Bool :=
  ('a' ≤ c && c ≤ 'z') || ('A' ≤ c && c ≤ 'Z') || ('0' ≤ c && c ≤ '9') ||
    c == '_' || c == '-' || c == '.'

def leadingRun : Line → Nat
  | [] => 0
  | c :: rest => if isWordChar c then leadingRun rest + 1 else 0

/-- Length of the maximal all-word-character suffix of a character list. -/
def trailingRun (s : Line) : Nat := leadingRun s.reverse

/-- context.matchBefore with the starred word regex: the absolute document
offset at which the longest run of word characters ending at pos starts; the
search window is pos's line, capped at 250 characters before pos. The starred
regex always matches (possibly emptily), so the source's null branch is dead. -/
def matchBeforeFrom (d : Doc) (pos : Nat) : Nat :=
  let i := d.lineIdxAt pos
  let lineStart := d.lineFrom i
  let cpos := pos - lineStart
  let lineChars := d.lines.getD i []
  pos - min (trailingRun (lineChars.take cpos)) (min cpos 250)

/-- The replacement-range start computed by lspCompletion: the source takes
lineStart plus the match's from field. -/
def lspCompletionFrom (d : Doc) (pos : Nat) : Nat :=
  let i := d.lineIdxAt pos
  let lineStart := d.lineFrom i
  lineStart + matchBeforeFrom d pos

structure CompletionResult where
  fromOffset : Nat
  options : List CMCompletion
  deriving DecidableEq

/-- lspCompletion end to end. The guard reads the store once at request time,
binding filePath and currentFilePath to the same store field; the
then-callback that runs when the server answers maps the items and computes
the range without reading the store again, so storeAtResponse is never
consulted. none embeds returning null. -/
def lspCompletion (doc : Doc) (pos : Nat) (storeAtRequest : LspStore)
    (completions : List CompletionItemL) (storeAtResponse : LspStore) :
    Option CompletionResult :=
  let currentFilePath := storeAtRequest.currentFilePath
  let filePath := storeAtRequest.currentFilePath
  if pathTruthy filePath = false ∨ filePath ≠ currentFilePath then none
  else some { fromOffset := lspCompletionFrom doc pos
              options := completions.map cmOfItem }

structure EnhancedHoverData where
  hoverText : String
  deriving DecidableEq

structure HoverInfo where
  enhancedContents : Option EnhancedHoverData
  deriving DecidableEq

structure ScreenCoords where
  top : Int
  left : Int
  deriving DecidableEq

/-- The displayable content of a hover response: none when the response is
null or has no enhancedContents. -/
def displayableContent : Option HoverInfo → Option EnhancedHoverData
  | none => none
  | some info => info.enhancedContents

/-- The callback created by createLspHover. propFilePath is the component's
filePath prop captured by the closure; the guard compares it to the store at
request time. hoverInfo is the awaited server response; posCoords is
view.coordsAtPos(pos), none when the position has no screen coordinates. A
some result records the showHoverFn invocation (content, anchor); none means
nothing is shown. The store is not read again after the await, so
storeAtResponse is never consulted. -/
def lspHover (propFilePath : Option String) (storeAtRequest : LspStore)
    (hoverInfo : Option HoverInfo) (posCoords : Option ScreenCoords)
    (storeAtResponse : LspStore) : Option (EnhancedHoverData × ScreenCoords) :=
  if pathTruthy propFilePath = false ∨ propFilePath ≠ storeAtRequest.currentFilePath then
    none
  else
    match hoverInfo with
    | none => none
    | some info =>
      match info.enhancedContents with
      | none => none
      | some contents =>
        match posCoords with
        | none => none
        | some c => some (contents, { top := c.top + 20, left := c.left })

/-- handleNavigation, on the navigate-to-position event. line and character
are the raw event payload. The target line is Math.min(doc.lines, line + 1);
doc.line throws (none) when that is below 1. The caret position is
lineStart + Math.min(character, lineLength); dispatching a selection outside
0..doc.length throws (none). A some result is the offset the caret moves
to. -/
def handleNavigation (d : Doc) (line character : Int) : Option Int :=
  match d.line (min (d.numLines : Int) (line + 1)) with
  | none => none
  | some fl =>
    let pos : Int := (fl.1 : Int) + min character (fl.2 : Int)
    if 0 ≤ pos ∧ pos ≤ (d.length : Int) then some pos else none

/-- handleChange's revision bump: setDocumentVersion's functional update
computes newVersion = version + 1, sends it to updateDocument and stores it.
Returns (new state, revision sent). -/
def handleChange (version : Nat) : Nat × Nat :=
  let newVersion := version + 1
  (newVersion, newVersion)

/-- n sequential content changes starting from documentVersion state v: the
list of revisions sent to updateDocument, in order. -/
def runChanges : Nat → Nat → List Nat
  | _, 0 => []
  | v, n + 1 => (handleChange v).2 :: runChanges (handleChange v).1 n

/-- The grammar extensions getLanguageExtension can return; the javascript
constructor records the jsx and typescript configuration flags. -/
inductive LangExt where
  | html
  | css
  | javascript (jsx : Bool) (typescript : Bool)
  | json
  | python
  | java
  | rust
  | cpp
  | php
  | xml
  | markdown
  | sql
  | sass
  | less
  | yaml
  deriving DecidableEq

/-- getLanguageExtension's switch, as a sequential comparison chain. -/
def getLanguageExtension (lang : String) : LangExt :=
  if lang = "html" then LangExt.html
  else if lang = "css" then LangExt.css
  else if lang = "javascript" then LangExt.javascript false false
  else if lang = "typescript" then LangExt.javascript false true
  else if lang = "jsx" then LangExt.javascript true false
  else if lang = "tsx" then LangExt.javascript true true
  else if lang = "json" then LangExt.json
  else if lang = "python" then LangExt.python
  else if lang = "java" then LangExt.java
  else if lang = "rust" then LangExt.rust
  else if lang = "cpp" ∨ lang = "c++" ∨ lang = "c" then LangExt.cpp
  else if lang = "php" then LangExt.php
  else if lang = "xml" then LangExt.xml
  else if lang = "markdown" ∨ lang = "md" then LangExt.markdown
  else if lang = "sql" then LangExt.sql
  else if lang = "sass" then LangExt.sass
  else if lang = "less" then LangExt.less
  else if lang = "yaml" then LangExt.yaml
  else LangExt.javascript false true

def lastIndexOfAux (s : List Char) (c : Char) : Option Nat :=
  match s with
  | [] => none
  | x :: rest =>
    match lastIndexOfAux rest c with
    | some i => some (i + 1)
    | none => if x = c then some 0 else none

/-- JavaScript String.lastIndexOf restricted to a single-character needle:
the index of the last occurrence, or -1 when absent. -/
def lastIndexOf (s : List Char) (c : Char) : Int :=
  match lastIndexOfAux s c with
  | some i => (i : Int)
  | none => -1

/-- JavaScript String.substring: negative arguments clamp to 0, arguments
above the length clamp to the length, and the bounds swap when out of
order. -/
def jsSubstring (s : List Char) (start finish : Int) : List Char :=
  let a := min (max start 0).toNat s.length
  let b := min (max finish 0).toNat s.length
  (s.take (max a b)).drop (min a b)

/-- getProjectRoot: resolved models the find_project_root invocation, none
being the rejected promise; the catch branch falls back to
filePath.substring(0, filePath.lastIndexOf(slash)). -/
def getProjectRoot (resolved : Option (List Char)) (filePath : List Char) : List Char :=
  match resolved with
  | some rootPath => rootPath
  | none => jsSubstring filePath 0 (lastIndexOf filePath '/')

/-- Single-line document holding the text of the completion scenario. -/
def docLet : Doc := ⟨[[ 'l', 'e', 't', ' ', 'x', ' ', '=', ' ', 'f', 'o', 'o', '.' ]]⟩

/-- Two-line document with lines a and foo. -/
def docAB : Doc := ⟨[[ 'a' ], [ 'f', 'o', 'o' ]]⟩

/-- Two-line document with lines ab and cd. -/
def docABCD : Doc := ⟨[[ 'a', 'b' ], [ 'c', 'd' ]]⟩

/-- Three-line document with lines a, b, c. -/
def docThree : Doc := ⟨[[ 'a' ], [ 'b' ], [ 'c' ]]⟩

def storeA : LspStore := ⟨some "a.ts", []⟩

def storeB : LspStore := ⟨some "b.ts", []⟩

/-- A diagnostic sitting on line 1 (the second line). -/
def demoDiag : DiagnosticItem := ⟨⟨⟨1, 0⟩, ⟨1, 2⟩⟩, "error", "m"⟩

def storeK : LspStore := ⟨some "k.ts", [demoDiag]⟩

def demoCompletion : CompletionItemL := ⟨"foo", "Method", "d", "docs"⟩

def demoHover : EnhancedHoverData := ⟨"sig"⟩

/-! Helper lemmas shared by the claim theorems. -/

theorem lineFromAux_add_lineLen_le (ls : List Line) (i : Nat) (h : i < ls.length) :
    lineFromAux ls i + (ls.getD i []).length ≤ linesLength ls := by
  induction ls generalizing i with
  | nil => simp at h
  | cons s rest ih =>
    cases i with
    | zero =>
      cases rest with
      | nil => simp [lineFromAux, linesLength]
      | cons t r =>
        show lineFromAux (s :: t :: r) 0 + ((s :: t :: r).getD 0 []).length ≤
          linesLength (s :: t :: r)
        simp [lineFromAux, linesLength]
        omega
    | succ i =>
      cases rest with
      | nil => simp at h
      | cons t r =>
        have hh : i < (t :: r).length := by
          simpa using Nat.lt_of_succ_lt_succ h
        have hrec := ih i hh
        show s.length + 1 + lineFromAux (t :: r) i + ((t :: r).getD i []).length ≤
          s.length + 1 + linesLength (t :: r)
        omega

theorem runChanges_length (n v : Nat) : (runChanges v n).length = n := by
  induction n generalizing v with
  | zero => rfl
  | succ n ih => simp [runChanges, handleChange, ih]

theorem runChanges_gt (n v : Nat) : ∀ x ∈ runChanges v n, v < x := by
  induction n generalizing v with
  | zero => simp [runChanges]
  | succ n ih =>
    intro x hx
    simp only [runChanges, handleChange, List.mem_cons] at hx
    cases hx with
    | inl h => omega
    | inr h => have := ih (v + 1) x h; omega

theorem runChanges_pairwise (n v : Nat) :
    List.Pairwise (fun a b => a < b) (runChanges v n) := by
  induction n generalizing v with
  | zero => simp [runChanges]
  | succ n ih =>
    simp only [runChanges, handleChange]
    refine List.Pairwise.cons ?_ (ih (v + 1))
    intro b hb
    have := runChanges_gt n (v + 1) b hb
    omega

theorem runChanges_chain (n v : Nat) :
    List.Chain' (fun a b => b = a + 1) (runChanges v n) := by
  induction n generalizing v with
  | zero => simp [runChanges]
  | succ n ih =>
    cases n with
    | zero => simp [runChanges]
    | succ m =>
      have h := ih (v + 1)
      simp only [runChanges, handleChange] at h ⊢
      exact List.chain'_cons.mpr ⟨rfl, h⟩

/-! Claim theorems. -/

/-- C1: the code contradicts the claim. A completion request issued while the
ActiveContext was a.ts resolves after the store switched to b.ts, and the
response is still applied (the provider returns the options instead of
dropping them): the then-callback never compares the originating file path to
the store at response time. -/
theorem C1_stale_response_applied :
    storeA.currentFilePath = some "a.ts" ∧
    storeB.currentFilePath = some "b.ts" ∧
    lspCompletion docLet 12 storeA [demoCompletion] storeB =
      some { fromOffset := 8,
             options := [{ label := "foo", type := "method", detail := "d",
                           info := "docs", app := "foo" }] } := by
  decide

/-- C2: the code contradicts the claim. For a diagnostic on line 1 of the
two-line document ab, cd, the projector emits the raw character fields (0, 2)
as editor offsets, while translating the server-form positions against the
document text gives offsets (3, 5); only the severity mapping agrees. -/
theorem C2_range_uses_raw_character :
    mapLspDiagnosticsToCM [demoDiag] =
      [{ fromOffset := 0, toOffset := 2, severity := "error", message := "m" }] ∧
    specProjectDiagnostic docABCD demoDiag =
      { fromOffset := 3, toOffset := 5, severity := "error", message := "m" } := by
  decide

/-- C3: the code contradicts the claim. The linter asked from the editor
surface displaying h.ts, while the ActiveContext is k.ts, returns the stored
diagnostic set (mapped) instead of the empty list: its guard compares the
store's currentFilePath to itself, so the surface's file is never consulted. -/
theorem C3_stale_diagnostics_shown :
    storeK.currentFilePath = some "k.ts" ∧
    some "h.ts" ≠ storeK.currentFilePath ∧
    lspLinter (some "h.ts") storeK =
      [{ fromOffset := 0, toOffset := 2, severity := "error", message := "m" }] := by
  decide

/-- C4 counterexample: the claim quantifies over any integers, but a negative
line is not clamped to 0: on the three-line document, the event line -2 makes
targetLine = -1 and doc.line(-1) throws, so the handler does not move the
caret to a valid offset. -/
theorem C4_negative_line_not_clamped :
    handleNavigation docThree (-2) 0 = none := by
  decide

/-- C6: the code contradicts the claim. matchBefore already returns an
absolute document offset, and the source adds the line start to it again: on
the two-line document a, foo with the cursor at offset 5, the longest word
run foo starts at offset 2 but the code computes from = 4. On the single-line
scenario document the two coincide and the code yields the span 8 to 12. -/
theorem C6_from_double_counts_line_start :
    matchBeforeFrom docAB 5 = 2 ∧
    lspCompletionFrom docAB 5 = 4 ∧
    lspCompletionFrom docLet 12 = 8 ∧
    matchBeforeFrom docLet 12 = 8 := by
  decide

/-- C5: confirmed. Starting from documentVersion 1, N sequential content
changes send exactly N revision numbers that are strictly increasing (hence
without repeats) and consecutive (hence without gaps). -/
theorem C5_revisions_strictly_increasing (N : Nat) :
    (runChanges 1 N).length = N ∧
    List.Pairwise (fun a b => a < b) (runChanges 1 N) ∧
    List.Chain' (fun a b => b = a + 1) (runChanges 1 N) :=
  ⟨runChanges_length N 1, runChanges_pairwise N 1, runChanges_chain N 1⟩

/-- C7: confirmed. For a hover request whose file is the ActiveContext (at
request time, or the request is never issued, and at response time), a
response without displayable content shows nothing, and a displayable
response invokes the display callback with the content anchored at the
triggering offset's screen coordinates shifted 20 pixels down. -/
theorem C7_hover_display (fp : String) (storeReq storeResp : LspStore)
    (info : Option HoverInfo) (c : ScreenCoords)
    (hfp : fp ≠ "")
    (hreq : storeReq.currentFilePath = some fp)
    (hresp : storeResp.currentFilePath = some fp) :
    lspHover (some fp) storeReq info (some c) storeResp =
      match displayableContent info with
      | none => none
      | some contents => some (contents, { top := c.top + 20, left := c.left }) := by
  have hguard : ¬(pathTruthy (some fp) = false ∨ some fp ≠ storeReq.currentFilePath) := by
    rw [hreq]
    simp [pathTruthy, hfp]
  unfold lspHover
  rw [if_neg hguard]
  cases info with
  | none => rfl
  | some i =>
    cases hi : i.enhancedContents with
    | none => simp [displayableContent, hi]
    | some contents => simp [displayableContent, hi]

/-- C7 witness: a concrete displayable hover on the active file a.ts is shown
at the trigger coordinates shifted 20 pixels down. -/
theorem C7_hover_display_witness :
    lspHover (some "a.ts") storeA (some { enhancedContents := some demoHover })
        (some { top := 10, left := 30 }) storeA =
      match displayableContent (some { enhancedContents := some demoHover }) with
      | none => none
      | some contents => some (contents, { top := (10 : Int) + 20, left := (30 : Int) }) :=
  C7_hover_display "a.ts" storeA storeA (some { enhancedContents := some demoHover })
    { top := 10, left := 30 } (by decide) rfl rfl

/-- C8: confirmed. The guards of both the completion provider and the linter
bind filePath and currentFilePath to the same store read, so they fail exactly
when the store's currentFilePath is falsy: with a truthy path the provider
answers and the linter returns the mapped stored diagnostics, whatever file
the editing surface displays (surfaceFilePath) and whatever the store holds at
response time (storeResp). -/
theorem C8_guard_compares_store_to_itself (doc : Doc) (pos : Nat)
    (store storeResp : LspStore) (comps : List CompletionItemL)
    (surfaceFilePath : Option String) :
    lspCompletion doc pos store comps storeResp =
      (if pathTruthy store.currentFilePath then
        some { fromOffset := lspCompletionFrom doc pos, options := comps.map cmOfItem }
      else none) ∧
    lspLinter surfaceFilePath store =
      (if pathTruthy store.currentFilePath then mapLspDiagnosticsToCM store.diagnostics
      else []) := by
  cases h : pathTruthy store.currentFilePath with
  | false => simp [lspCompletion, lspLinter, h]
  | true => simp [lspCompletion, lspLinter, h]

/-- C9: confirmed. Any language string outside the explicitly handled cases
falls through every branch of the switch and gets the TypeScript-enabled
JavaScript extension. -/
theorem C9_default_is_typescript_javascript (lang : String)
    (h : lang ∉ ["html", "css", "javascript", "typescript", "jsx", "tsx", "json",
      "python", "java", "rust", "cpp", "c++", "c", "php", "xml", "markdown", "md",
      "sql", "sass", "less", "yaml"]) :
    getLanguageExtension lang = LangExt.javascript false true := by
  simp only [List.mem_cons, List.not_mem_nil, or_false, not_or] at h
  obtain ⟨n1, n2, n3, n4, n5, n6, n7, n8, n9, n10, n11, n12, n13, n14, n15, n16, n17,
    n18, n19, n20, n21⟩ := h
  simp [getLanguageExtension, n1, n2, n3, n4, n5, n6, n7, n8, n9, n10, n11, n12, n13,
    n14, n15, n16, n17, n18, n19, n20, n21]

/-- C9 witness: ocaml is not a handled case and gets the fallback. -/
theorem C9_default_witness :
    getLanguageExtension "ocaml" = LangExt.javascript false true :=
  C9_default_is_typescript_javascript "ocaml" (by decide)

theorem lastIndexOfAux_of_not_mem (s : List Char) (c : Char) (h : c ∉ s) :
    lastIndexOfAux s c = none := by
  induction s with
  | nil => rfl
  | cons x rest ih =>
    simp only [List.mem_cons, not_or] at h
    unfold lastIndexOfAux
    rw [ih h.2]
    have hx : ¬(x = c) := fun he => h.1 he.symm
    simp [hx]

theorem lastIndexOfAux_append (xs ys : List Char) (h : '/' ∉ ys) :
    lastIndexOfAux (xs ++ '/' :: ys) '/' = some xs.length := by
  induction xs with
  | nil =>
    show lastIndexOfAux ('/' :: ys) '/' = some 0
    unfold lastIndexOfAux
    rw [lastIndexOfAux_of_not_mem ys '/' h]
    simp
  | cons x rest ih =>
    show lastIndexOfAux (x :: (rest ++ '/' :: ys)) '/' = some (rest.length + 1)
    unfold lastIndexOfAux
    rw [ih]

theorem jsSubstring_zero_nonneg (s : List Char) (k : Nat) (hk : k ≤ s.length) :
    jsSubstring s 0 (k : Int) = s.take k := by
  unfold jsSubstring
  have h0 : (max (0 : Int) 0).toNat = 0 := by omega
  have h1 : (max ((k : Nat) : Int) 0).toNat = k := by omega
  rw [h0, h1]
  simp [Nat.min_eq_left hk]

theorem jsSubstring_zero_neg_one (s : List Char) : jsSubstring s 0 (-1) = [] := by
  unfold jsSubstring
  norm_num

/-- C10: confirmed. When project-root resolution fails, the fallback root is
the prefix of filePath strictly before its last slash, and the empty string
when filePath has no slash (lastIndexOf yields -1 and substring clamps it
to 0). -/
theorem C10_fallback_root (fp : List Char) :
    (∀ xs ys, fp = xs ++ '/' :: ys → '/' ∉ ys → getProjectRoot none fp = xs) ∧
    ( '/' ∉ fp → getProjectRoot none fp = []) := by
  constructor
  · intro xs ys hfp hys
    subst hfp
    unfold getProjectRoot lastIndexOf
    rw [lastIndexOfAux_append xs ys hys]
    show jsSubstring (xs ++ '/' :: ys) 0 (xs.length : Int) = xs
    rw [jsSubstring_zero_nonneg _ _ (by simp)]
    simp [List.take_append]
  · intro h
    unfold getProjectRoot lastIndexOf
    rw [lastIndexOfAux_of_not_mem fp '/' h]
    show jsSubstring fp 0 (-1) = []
    exact jsSubstring_zero_neg_one fp

/-- C10 witness: src/a has fallback root src; ab, without a slash, has the
empty fallback root. -/
theorem C10_fallback_root_witness :
    getProjectRoot none [ 's', 'r', 'c', '/', 'a' ] = [ 's', 'r', 'c' ] ∧
    getProjectRoot none [ 'a', 'b' ] = [] :=
  ⟨(C10_fallback_root [ 's', 'r', 'c', '/', 'a' ]).1 [ 's', 'r', 'c' ] [ 'a' ]
      rfl (by decide),
    (C10_fallback_root [ 'a', 'b' ]).2 (by decide)⟩

/-- C4 as amended: for navigation events with nonnegative line and character,
the handler clamps the line to the last line, clamps the character to that
line's length, moves the caret to the corresponding editor offset, and that
offset is a valid position of the document. -/
theorem C4_nonneg_navigation_clamps (d : Doc) (L C : Int)
    (hne : d.lines ≠ []) (hL : 0 ≤ L) (hC : 0 ≤ C) :
    handleNavigation d L C =
      some ((d.lineFrom (min L.toNat (d.numLines - 1)) +
        min C.toNat (d.lineLen (min L.toNat (d.numLines - 1))) : Nat) : Int) ∧
    d.lineFrom (min L.toNat (d.numLines - 1)) +
        min C.toNat (d.lineLen (min L.toNat (d.numLines - 1))) ≤ d.length := by
  have hn : 1 ≤ d.numLines := by
    cases hd : d.lines with
    | nil => exact absurd hd hne
    | cons s rest => simp [Doc.numLines, hd]
  have hidx : ((min (d.numLines : Int) (L + 1)) - 1).toNat = min L.toNat (d.numLines - 1) := by
    omega
  have hline : d.line (min (d.numLines : Int) (L + 1)) =
      some (d.lineFrom (min L.toNat (d.numLines - 1)),
        d.lineLen (min L.toNat (d.numLines - 1))) := by
    unfold Doc.line
    rw [if_pos (by constructor <;> omega)]
    rw [hidx]
  have hvalid : d.lineFrom (min L.toNat (d.numLines - 1)) +
      d.lineLen (min L.toNat (d.numLines - 1)) ≤ d.length := by
    have := lineFromAux_add_lineLen_le d.lines (min L.toNat (d.numLines - 1))
      (by unfold Doc.numLines at hn ⊢; omega)
    simpa [Doc.lineFrom, Doc.lineLen, Doc.length] using this
  constructor
  · have hmin : min C ((d.lineLen (min L.toNat (d.numLines - 1)) : Nat) : Int) =
        ((min C.toNat (d.lineLen (min L.toNat (d.numLines - 1))) : Nat) : Int) := by
      omega
    simp only [handleNavigation, hline, hmin]
    rw [if_pos (by constructor <;> omega)]
    simp
  · omega

/-- C4 witness: the spec scenario: event line 1000, character 5 on a three-line
document clamps to the last line's end; the caret lands at the valid offset
5. -/
theorem C4_nonneg_navigation_clamps_witness :
    handleNavigation docThree 1000 5 = some 5 ∧
    docThree.lineFrom (min (1000 : Int).toNat (docThree.numLines - 1)) +
      min (5 : Int).toNat (docThree.lineLen (min (1000 : Int).toNat (docThree.numLines - 1))) ≤
      docThree.length :=
  C4_nonneg_navigation_clamps docThree 1000 5 (by decide) (by decide) (by decide)
